import Mathlib

/-!
Shallow embedding of the client state store of the HabitMax Telegram
mini-app (`src/webapp/src/store/useHabitStore.ts`), together with the
data model it operates on (`src/webapp/src/types/index.ts`).

Modelling choices:
* JavaScript numbers holding integer quantities (ids, counters, streaks,
  day counts) are modelled as `Int`; fractional rates and percentages that
  the store merely carries are modelled as `ℚ`.
* TypeScript optional fields (`field?: T`) become `Option T`; string-literal
  union types become `String`.
* `Partial<Habit>` becomes a record of `Option`-wrapped fields
  (`HabitUpdate`); the JavaScript spread `{ ...h, ...updates }` becomes
  `applyUpdate`, which takes each field from the update when present and
  from the habit otherwise.
* `Math.round` on the exact rational value is `jsRound` (JavaScript rounds
  half-integers toward positive infinity); `Math.min(...)` / `Math.max(...)`
  over a spread non-empty array are folds of binary `min` / `max`.
-/

/-- Nested settings block of a user profile (`UserSettings` in
`src/webapp/src/types/index.ts`). -/
structure UserSettings where
  ai_enabled : Bool
  notification_enabled : Bool
  timezone : String
  theme : String
  deriving DecidableEq, Repr

/-- Nested aggregate statistics of a user profile (`UserStats`). -/
structure UserStats where
  total_habits : Int
  active_habits : Int
  total_completions : Int
  best_streak : Int
  current_streak : Int
  completion_rate_7d : ℚ
  completion_rate_30d : ℚ
  deriving DecidableEq, Repr

/-- User profile (`User` in `src/webapp/src/types/index.ts`). -/
structure User where
  id : Int
  first_name : String
  last_name : Option String
  username : Option String
  settings : UserSettings
  stats : UserStats
  created_at : String
  last_active : Option String
  deriving DecidableEq, Repr

/-- A tracked habit (`Habit` in `src/webapp/src/types/index.ts`). -/
structure Habit where
  id : Int
  name : String
  description : Option String
  emoji : String
  reminder_time : Option String
  frequency : String
  target_days : Int
  is_active : Bool
  current_streak : Int
  best_streak : Int
  total_completions : Int
  progress_percentage : ℚ
  is_completed_today : Bool
  created_at : String
  deriving DecidableEq, Repr

/-- AI weekly summary artifact (`WeeklySummary`). -/
structure WeeklySummary where
  week_start : String
  week_end : String
  total_habits : Int
  completed_count : Int
  skipped_count : Int
  best_streak : Int
  completion_rate : ℚ
  ai_summary : String
  motivational_message : String
  tips : List String
  generated_at : String
  is_cached : Bool
  share_text : String
  deriving DecidableEq, Repr

/-- One recurring failure pattern (`FailurePattern`). -/
structure FailurePattern where
  day_of_week : String
  time_of_day : Option String
  reason : Option String
  frequency : Int
  deriving DecidableEq, Repr

/-- One suggested strategy (`Strategy`). -/
structure Strategy where
  title : String
  description : String
  action_steps : List String
  difficulty : String
  estimated_effectiveness : ℚ
  deriving DecidableEq, Repr

/-- AI failure-analysis artifact (`FailureAnalysis`). -/
structure FailureAnalysis where
  habit_id : Option Int
  habit_name : Option String
  failure_count : Int
  failure_rate : ℚ
  common_patterns : List FailurePattern
  skip_reasons : List String
  empathetic_message : String
  root_causes : List String
  strategies : List Strategy
  generated_at : String
  is_cached : Bool
  deriving DecidableEq, Repr

/-- Per-day completion breakdown (`DayProgress`). -/
structure DayProgress where
  date : String
  completed : Int
  total : Int
  percentage : ℚ
  deriving DecidableEq, Repr

/-- Weekly progress artifact (`WeeklyProgress`). -/
structure WeeklyProgress where
  week_start : String
  week_end : String
  days : List DayProgress
  total_completed : Int
  total_habits : Int
  average_percentage : ℚ
  deriving DecidableEq, Repr

/-- The data and UI-state fields of the store (`HabitState` in
`src/webapp/src/store/useHabitStore.ts`).  The actions and computed getters
of the TypeScript interface become top-level functions on this record. -/
structure HabitState where
  habits : List Habit
  user : Option User
  weeklySummary : Option WeeklySummary
  failureAnalysis : Option FailureAnalysis
  weeklyProgress : Option WeeklyProgress
  isLoading : Bool
  error : Option String
  selectedHabitId : Option Int
  deriving DecidableEq, Repr

/-- Initial state of the store (the literal initial fields passed to
`create` in `useHabitStore.ts`). -/
def initialState : HabitState where
  habits := []
  user := none
  weeklySummary := none
  failureAnalysis := none
  weeklyProgress := none
  isLoading := false
  error := none
  selectedHabitId := none

/-- A `Partial<Habit>` value: each field is present (`some`) or absent
(`none`).  A field whose habit type is already optional is doubly wrapped,
distinguishing "absent from the update" from "present and set to null". -/
structure HabitUpdate where
  id : Option Int := none
  name : Option String := none
  description : Option (Option String) := none
  emoji : Option String := none
  reminder_time : Option (Option String) := none
  frequency : Option String := none
  target_days : Option Int := none
  is_active : Option Bool := none
  current_streak : Option Int := none
  best_streak : Option Int := none
  total_completions : Option Int := none
  progress_percentage : Option ℚ := none
  is_completed_today : Option Bool := none
  created_at : Option String := none
  deriving DecidableEq, Repr

/-- The JavaScript spread merge `{ ...h, ...updates }`: every field present
in the update overrides the habit's field, all other fields are kept. -/
def applyUpdate (h : Habit) (u : HabitUpdate) : Habit where
  id := u.id.getD h.id
  name := u.name.getD h.name
  description := u.description.getD h.description
  emoji := u.emoji.getD h.emoji
  reminder_time := u.reminder_time.getD h.reminder_time
  frequency := u.frequency.getD h.frequency
  target_days := u.target_days.getD h.target_days
  is_active := u.is_active.getD h.is_active
  current_streak := u.current_streak.getD h.current_streak
  best_streak := u.best_streak.getD h.best_streak
  total_completions := u.total_completions.getD h.total_completions
  progress_percentage := u.progress_percentage.getD h.progress_percentage
  is_completed_today := u.is_completed_today.getD h.is_completed_today
  created_at := u.created_at.getD h.created_at

/-- Action `setHabits`: replaces the whole habit collection. -/
def setHabits (s : HabitState) (habits : List Habit) : HabitState :=
  { s with habits := habits }

/-- Action `addHabit`: appends one habit at the end
(`[...state.habits, habit]`). -/
def addHabit (s : HabitState) (habit : Habit) : HabitState :=
  { s with habits := s.habits ++ [habit] }

/-- Action `updateHabit`: maps over the collection, spreading the update
into every habit whose id equals the given id. -/
def updateHabit (s : HabitState) (id : Int) (updates : HabitUpdate) : HabitState :=
  { s with habits := s.habits.map (fun h =>
      if h.id = id then applyUpdate h updates else h) }

/-- Action `removeHabit`: filters out the habits whose id equals the given
id (`state.habits.filter((h) => h.id !== id)`). -/
def removeHabit (s : HabitState) (id : Int) : HabitState :=
  { s with habits := s.habits.filter (fun h => h.id != id) }

/-- Action `completeHabit`: maps over the collection; a habit whose id
matches gets `is_completed_today := true` and both counters incremented,
unconditionally. -/
def completeHabit (s : HabitState) (id : Int) : HabitState :=
  { s with habits := s.habits.map (fun h =>
      if h.id = id then
        { h with
          is_completed_today := true
          total_completions := h.total_completions + 1
          current_streak := h.current_streak + 1 }
      else h) }

/-- Action `setUser`. -/
def setUser (s : HabitState) (user : User) : HabitState :=
  { s with user := some user }

/-- Action `setWeeklySummary`. -/
def setWeeklySummary (s : HabitState) (summary : WeeklySummary) : HabitState :=
  { s with weeklySummary := some summary }

/-- Action `setFailureAnalysis`. -/
def setFailureAnalysis (s : HabitState) (analysis : FailureAnalysis) : HabitState :=
  { s with failureAnalysis := some analysis }

/-- Action `setWeeklyProgress`. -/
def setWeeklyProgress (s : HabitState) (progress : WeeklyProgress) : HabitState :=
  { s with weeklyProgress := some progress }

/-- Action `setLoading`. -/
def setLoading (s : HabitState) (isLoading : Bool) : HabitState :=
  { s with isLoading := isLoading }

/-- Action `setError`. -/
def setError (s : HabitState) (error : Option String) : HabitState :=
  { s with error := error }

/-- Action `selectHabit`. -/
def selectHabit (s : HabitState) (id : Option Int) : HabitState :=
  { s with selectedHabitId := id }

/-- JavaScript `Math.round` on the exact rational value of its argument:
rounds to the nearest integer, half-integers toward positive infinity. -/
def jsRound (x : ℚ) : ℤ := ⌊x + 1 / 2⌋

/-- Computed getter `getCompletedToday`: number of habits flagged
completed today. -/
def getCompletedToday (s : HabitState) : ℕ :=
  (s.habits.filter (fun h => h.is_completed_today)).length

/-- Computed getter `getTodayProgress`: 0 on an empty collection, else
`Math.round((completed / habits.length) * 100)`. -/
def getTodayProgress (s : HabitState) : ℤ :=
  if s.habits.length = 0 then 0
  else
    jsRound (((s.habits.filter (fun h => h.is_completed_today)).length : ℚ)
      / (s.habits.length : ℚ) * 100)

/-- JavaScript `Math.min(...)` applied to a spread integer array.  The
store only calls it on non-empty arrays (it guards with a length check;
`Math.min()` of nothing would be `Infinity`), so the empty case is mapped
to 0 and never relied on. -/
def mathMin : List Int → Int
  | [] => 0
  | x :: xs => xs.foldl min x

/-- JavaScript `Math.max(...)` applied to a spread integer array; empty
case as in `mathMin`. -/
def mathMax : List Int → Int
  | [] => 0
  | x :: xs => xs.foldl max x

/-- Computed getter `getStreakData`: the minimum current streak and the
maximum best streak over the collection, both 0 when it is empty. -/
def getStreakData (s : HabitState) : Int × Int :=
  let current := if s.habits.length > 0 then
    mathMin (s.habits.map (fun h => h.current_streak)) else 0
  let best := if s.habits.length > 0 then
    mathMax (s.habits.map (fun h => h.best_streak)) else 0
  (current, best)

/-- The persisted subset of the store: the shape produced by the
`partialize` option of the persistence middleware in `useHabitStore.ts`,
which selects only `user` and `habits`. -/
structure PersistedState where
  user : Option User
  habits : List Habit
  deriving DecidableEq, Repr

/-- The fixed storage key (`name` option of the persistence middleware). -/
def storageName : String := "habitmax-storage"

/-- Serialization step of the persistence middleware: project the store
onto the persisted subset (the `partialize` function in
`useHabitStore.ts`). -/
def persistSubset (s : HabitState) : PersistedState where
  user := s.user
  habits := s.habits

/-- Modelled from the spec: the rehydration step of the persistence
middleware (zustand `persist`, library code not in this repository).  Per
the persistence contract in the spec, on process start the persisted slot
is read back and merged over the initial state, so the persisted fields
are restored and every other field keeps its default. -/
def rehydrate (p : PersistedState) : HabitState :=
  { initialState with user := p.user, habits := p.habits }

/-- Persist-then-reload round trip. -/
def persistReload (s : HabitState) : HabitState :=
  rehydrate (persistSubset s)

/-! Helper lemmas about folded binary `min` / `max`, used to characterise
`mathMin` and `mathMax` as the minimum and maximum of a non-empty list. -/

theorem foldl_min_le_init (xs : List Int) (x : Int) : xs.foldl min x ≤ x := by
  induction xs generalizing x with
  | nil => simp
  | cons y ys ih => exact le_trans (ih (min x y)) (min_le_left x y)

theorem foldl_min_le_mem (xs : List Int) (x : Int) :
    ∀ y ∈ xs, xs.foldl min x ≤ y := by
  induction xs generalizing x with
  | nil => intro y hy; cases hy
  | cons z zs ih =>
    intro y hy
    rcases List.mem_cons.mp hy with h | h
    · subst h
      exact le_trans (foldl_min_le_init zs (min x y)) (min_le_right x y)
    · exact ih (min x z) y h

theorem foldl_min_mem (xs : List Int) (x : Int) : xs.foldl min x ∈ x :: xs := by
  induction xs generalizing x with
  | nil => simp
  | cons y ys ih =>
    have h := ih (min x y)
    rcases List.mem_cons.mp h with h1 | h1
    · rcases min_choice x y with h2 | h2
      · exact List.mem_cons.mpr (Or.inl (h1.trans h2))
      · exact List.mem_cons.mpr (Or.inr (List.mem_cons.mpr (Or.inl (h1.trans h2))))
    · exact List.mem_cons.mpr (Or.inr (List.mem_cons.mpr (Or.inr h1)))

theorem le_foldl_max_init (xs : List Int) (x : Int) : x ≤ xs.foldl max x := by
  induction xs generalizing x with
  | nil => simp
  | cons y ys ih => exact le_trans (le_max_left x y) (ih (max x y))

theorem le_foldl_max_mem (xs : List Int) (x : Int) :
    ∀ y ∈ xs, y ≤ xs.foldl max x := by
  induction xs generalizing x with
  | nil => intro y hy; cases hy
  | cons z zs ih =>
    intro y hy
    rcases List.mem_cons.mp hy with h | h
    · subst h
      exact le_trans (le_max_right x y) (le_foldl_max_init zs (max x y))
    · exact ih (max x z) y h

theorem foldl_max_mem (xs : List Int) (x : Int) : xs.foldl max x ∈ x :: xs := by
  induction xs generalizing x with
  | nil => simp
  | cons y ys ih =>
    have h := ih (max x y)
    rcases List.mem_cons.mp h with h1 | h1
    · rcases max_choice x y with h2 | h2
      · exact List.mem_cons.mpr (Or.inl (h1.trans h2))
      · exact List.mem_cons.mpr (Or.inr (List.mem_cons.mpr (Or.inl (h1.trans h2))))
    · exact List.mem_cons.mpr (Or.inr (List.mem_cons.mpr (Or.inr h1)))

/-! Concrete values used to instantiate the theorems at explicit inputs. -/

/-- A concrete habit: id 1, nothing completed yet. -/
def habitA : Habit where
  id := 1
  name := "Reading"
  description := none
  emoji := "R"
  reminder_time := none
  frequency := "daily"
  target_days := 21
  is_active := true
  current_streak := 0
  best_streak := 0
  total_completions := 0
  progress_percentage := 0
  is_completed_today := false
  created_at := "2024-01-01"

/-- A concrete habit: id 2, completed today, streaks 3 and 5. -/
def habitB : Habit :=
  { habitA with
    id := 2
    name := "Water"
    is_completed_today := true
    current_streak := 3
    best_streak := 5
    total_completions := 7 }

/-- An update that is empty (every field absent). -/
def emptyUpdate : HabitUpdate := {}

/-- An update that only renames. -/
def renameUpdate : HabitUpdate := { name := some "Running" }

/-- mathMin of a non-empty list is an element of the list. -/
theorem mathMin_mem (l : List Int) (hl : l ≠ []) : mathMin l ∈ l := by
  cases l with
  | nil => exact absurd rfl hl
  | cons x xs => exact foldl_min_mem xs x

/-- mathMin is a lower bound of the list. -/
theorem mathMin_le (l : List Int) : ∀ y ∈ l, mathMin l ≤ y := by
  cases l with
  | nil => intro y hy; cases hy
  | cons x xs =>
    intro y hy
    rcases List.mem_cons.mp hy with h | h
    · exact h ▸ foldl_min_le_init xs x
    · exact foldl_min_le_mem xs x y h

/-- mathMax of a non-empty list is an element of the list. -/
theorem mathMax_mem (l : List Int) (hl : l ≠ []) : mathMax l ∈ l := by
  cases l with
  | nil => exact absurd rfl hl
  | cons x xs => exact foldl_max_mem xs x

/-- mathMax is an upper bound of the list. -/
theorem le_mathMax (l : List Int) : ∀ y ∈ l, y ≤ mathMax l := by
  cases l with
  | nil => intro y hy; cases hy
  | cons x xs =>
    intro y hy
    rcases List.mem_cons.mp hy with h | h
    · exact h ▸ le_foldl_max_init xs x
    · exact le_foldl_max_mem xs x y h

/-- C8: `setHabits(list)` replaces the entire habit collection with the
given list — any list, no validation — and leaves every other store field
(`user`, `weeklySummary`, `failureAnalysis`, `weeklyProgress`, `isLoading`,
`error`, `selectedHabitId`) unchanged. -/
theorem setHabits_replaces_and_frames (s : HabitState) (l : List Habit) :
    (setHabits s l).habits = l ∧
    (setHabits s l).user = s.user ∧
    (setHabits s l).weeklySummary = s.weeklySummary ∧
    (setHabits s l).failureAnalysis = s.failureAnalysis ∧
    (setHabits s l).weeklyProgress = s.weeklyProgress ∧
    (setHabits s l).isLoading = s.isLoading ∧
    (setHabits s l).error = s.error ∧
    (setHabits s l).selectedHabitId = s.selectedHabitId :=
  ⟨rfl, rfl, rfl, rfl, rfl, rfl, rfl, rfl⟩

/-- C4: persisting (projecting onto the `partialize` subset) and then
reloading yields a store whose `user` and `habits` equal the pre-persist
values, while every non-persisted field is reset to its default:
`weeklySummary`, `failureAnalysis`, `weeklyProgress` to `none`,
`isLoading` to `false`, `error` and `selectedHabitId` to `none`. -/
theorem persistReload_roundtrip (s : HabitState) :
    (persistReload s).user = s.user ∧
    (persistReload s).habits = s.habits ∧
    (persistReload s).weeklySummary = none ∧
    (persistReload s).failureAnalysis = none ∧
    (persistReload s).weeklyProgress = none ∧
    (persistReload s).isLoading = false ∧
    (persistReload s).error = none ∧
    (persistReload s).selectedHabitId = none :=
  ⟨rfl, rfl, rfl, rfl, rfl, rfl, rfl, rfl⟩

/-- C2: `getTodayProgress` returns 0 on an empty collection; on a
non-empty collection it equals `round(100 * completedCount / totalCount)`
on the exact rational value; and the result always lies in `[0, 100]`. -/
theorem getTodayProgress_spec (s : HabitState) :
    (s.habits = [] → getTodayProgress s = 0) ∧
    (s.habits ≠ [] →
      getTodayProgress s =
        round (100 * (getCompletedToday s : ℚ) / (s.habits.length : ℚ))) ∧
    0 ≤ getTodayProgress s ∧ getTodayProgress s ≤ 100 := by
  by_cases hnil : s.habits = []
  · refine ⟨fun _ => by simp [getTodayProgress, hnil], fun h => absurd hnil h, ?_, ?_⟩
    · simp [getTodayProgress, hnil]
    · simp [getTodayProgress, hnil]
  · have hlen : s.habits.length ≠ 0 := fun h => hnil (List.length_eq_zero.mp h)
    have hn : (0 : ℚ) < (s.habits.length : ℚ) := by
      exact_mod_cast Nat.pos_of_ne_zero hlen
    have hc : ((s.habits.filter (fun h => h.is_completed_today)).length : ℚ)
        ≤ (s.habits.length : ℚ) := by
      exact_mod_cast List.length_filter_le _ _
    set c : ℚ := ((s.habits.filter (fun h => h.is_completed_today)).length : ℚ) with hcdef
    have hc0 : (0 : ℚ) ≤ c := by positivity
    have hx0 : 0 ≤ c / (s.habits.length : ℚ) * 100 := by positivity
    have hx1 : c / (s.habits.length : ℚ) * 100 ≤ 100 := by
      have h1 : c / (s.habits.length : ℚ) ≤ 1 := (div_le_one hn).mpr hc
      nlinarith
    have hval : getTodayProgress s = ⌊c / (s.habits.length : ℚ) * 100 + 1 / 2⌋ := by
      simp only [getTodayProgress, jsRound, hlen, if_false]
    refine ⟨fun h => absurd h hnil, fun _ => ?_, ?_, ?_⟩
    · rw [hval, round_eq]
      have hgc : (getCompletedToday s : ℚ) = c := rfl
      rw [hgc]
      congr 1
      ring
    · rw [hval]
      exact Int.le_floor.mpr (by push_cast; linarith)
    · rw [hval]
      have h2 : ⌊c / (s.habits.length : ℚ) * 100 + 1 / 2⌋ ≤ ⌊(100 : ℚ) + 1 / 2⌋ :=
        Int.floor_le_floor (by linarith)
      have h3 : (⌊(100 : ℚ) + 1 / 2⌋ : ℤ) = 100 := by norm_num
      exact le_trans h2 (le_of_eq h3)

/-- Witness for C2 at concrete inputs: the empty store yields 0, and a
two-habit store (one completed) matches the rounded ratio. -/
theorem getTodayProgress_spec_witness :
    getTodayProgress initialState = 0 ∧
    getTodayProgress (setHabits initialState [habitA, habitB]) =
      round (100 * (getCompletedToday (setHabits initialState [habitA, habitB]) : ℚ)
        / ((setHabits initialState [habitA, habitB]).habits.length : ℚ)) :=
  ⟨(getTodayProgress_spec initialState).1 rfl,
   (getTodayProgress_spec (setHabits initialState [habitA, habitB])).2.1
     (by simp [setHabits])⟩

/-- C3: `getStreakData` returns `(0, 0)` on the empty collection; on a
non-empty collection its first component is the minimum of all habits'
current streaks (attained, and a lower bound) and its second component is
the maximum of all habits' best streaks (attained, and an upper bound). -/
theorem getStreakData_spec (s : HabitState) :
    (s.habits = [] → getStreakData s = (0, 0)) ∧
    (s.habits ≠ [] →
      (∃ h ∈ s.habits, (getStreakData s).1 = h.current_streak) ∧
      (∀ h ∈ s.habits, (getStreakData s).1 ≤ h.current_streak) ∧
      (∃ h ∈ s.habits, (getStreakData s).2 = h.best_streak) ∧
      (∀ h ∈ s.habits, h.best_streak ≤ (getStreakData s).2)) := by
  constructor
  · intro hnil
    simp [getStreakData, hnil]
  · intro hnil
    have hlen : 0 < s.habits.length := List.length_pos.mpr hnil
    have hmapc : s.habits.map (fun h => h.current_streak) ≠ [] := by
      simpa using hnil
    have hmapb : s.habits.map (fun h => h.best_streak) ≠ [] := by
      simpa using hnil
    have h1 : (getStreakData s).1
        = mathMin (s.habits.map (fun h => h.current_streak)) := by
      simp [getStreakData, hlen]
    have h2 : (getStreakData s).2
        = mathMax (s.habits.map (fun h => h.best_streak)) := by
      simp [getStreakData, hlen]
    refine ⟨?_, ?_, ?_, ?_⟩
    · obtain ⟨h, hmem, heq⟩ := List.mem_map.mp (mathMin_mem _ hmapc)
      exact ⟨h, hmem, by rw [h1, heq]⟩
    · intro h hmem
      rw [h1]
      exact mathMin_le _ _ (List.mem_map_of_mem _ hmem)
    · obtain ⟨h, hmem, heq⟩ := List.mem_map.mp (mathMax_mem _ hmapb)
      exact ⟨h, hmem, by rw [h2, heq]⟩
    · intro h hmem
      rw [h2]
      exact le_mathMax _ _ (List.mem_map_of_mem _ hmem)

/-- Witness for C3 at concrete inputs: the empty store gives `(0, 0)`, and
on a two-habit store the first component is a lower bound of the current
streaks. -/
theorem getStreakData_spec_witness :
    getStreakData initialState = (0, 0) ∧
    (∀ h ∈ (setHabits initialState [habitA, habitB]).habits,
      (getStreakData (setHabits initialState [habitA, habitB])).1 ≤ h.current_streak) :=
  ⟨(getStreakData_spec initialState).1 rfl,
   ((getStreakData_spec (setHabits initialState [habitA, habitB])).2
     (by simp [setHabits])).2.1⟩

/-- C1: `completeHabit(id)` on a habit whose id matches sets
`is_completed_today` to true and increments `total_completions` and
`current_streak` by exactly 1; it does not guard on an already-completed
state, so a second call increments both counters again; and when no habit
matches the id the whole store is unchanged. -/
theorem completeHabit_spec (s : HabitState) (id : Int) :
    (∀ (i : ℕ) (h0 : Habit), s.habits[i]? = some h0 → h0.id = id →
      (completeHabit s id).habits[i]? =
        some { h0 with
          is_completed_today := true
          total_completions := h0.total_completions + 1
          current_streak := h0.current_streak + 1 } ∧
      (completeHabit (completeHabit s id) id).habits[i]? =
        some { h0 with
          is_completed_today := true
          total_completions := h0.total_completions + 2
          current_streak := h0.current_streak + 2 }) ∧
    ((∀ h ∈ s.habits, h.id ≠ id) → completeHabit s id = s) := by
  constructor
  · intro i h0 hi hid
    constructor
    · simp [completeHabit, List.getElem?_map, hi, hid]
    · have e2 : h0.total_completions + 1 + 1 = h0.total_completions + 2 := by ring
      have e3 : h0.current_streak + 1 + 1 = h0.current_streak + 2 := by ring
      simp [completeHabit, List.getElem?_map, hi, hid, e2, e3]
  · intro hno
    have h1 : s.habits.map (fun h =>
        if h.id = id then
          { h with
            is_completed_today := true
            total_completions := h.total_completions + 1
            current_streak := h.current_streak + 1 }
        else h) = s.habits := by
      have h2 := List.map_congr_left (l := s.habits)
        (f := fun h =>
          if h.id = id then
            { h with
              is_completed_today := true
              total_completions := h.total_completions + 1
              current_streak := h.current_streak + 1 }
          else h)
        (g := fun a => a) (fun a ha => by simp [hno a ha])
      simpa using h2
    show { s with habits := _ } = s
    rw [h1]

/-- Witness for C1: completing habit 1 in a one-habit store updates the
counters once, and completing it twice updates them twice. -/
theorem completeHabit_spec_witness :
    (completeHabit (setHabits initialState [habitA]) 1).habits[0]? =
      some { habitA with
        is_completed_today := true
        total_completions := habitA.total_completions + 1
        current_streak := habitA.current_streak + 1 } ∧
    (completeHabit (completeHabit (setHabits initialState [habitA]) 1) 1).habits[0]? =
      some { habitA with
        is_completed_today := true
        total_completions := habitA.total_completions + 2
        current_streak := habitA.current_streak + 2 } :=
  (completeHabit_spec (setHabits initialState [habitA]) 1).1 0 habitA rfl rfl

/-- C5: on an id matching no habit, `updateHabit` and `removeHabit` leave
the entire store state (the habit collection included) unchanged — they
are total functions returning the same state, so no error is signalled and
the caller cannot distinguish this case from a successful update. -/
theorem unmatched_id_noop (s : HabitState) (id : Int) (u : HabitUpdate)
    (hno : ∀ h ∈ s.habits, h.id ≠ id) :
    updateHabit s id u = s ∧ removeHabit s id = s := by
  constructor
  · have h1 : s.habits.map (fun h => if h.id = id then applyUpdate h u else h)
        = s.habits := by
      have h2 := List.map_congr_left (l := s.habits)
        (f := fun h => if h.id = id then applyUpdate h u else h)
        (g := fun a => a) (fun a ha => by simp [hno a ha])
      simpa using h2
    show { s with habits := _ } = s
    rw [h1]
  · have h1 : s.habits.filter (fun h => h.id != id) = s.habits :=
      List.filter_eq_self.mpr (fun a ha => by simp [hno a ha])
    show { s with habits := _ } = s
    rw [h1]

/-- Witness for C5: id 2 matches nothing in a store holding only habit 1,
and both operations return the state unchanged. -/
theorem unmatched_id_noop_witness :
    updateHabit (setHabits initialState [habitA]) 2 renameUpdate
      = setHabits initialState [habitA] ∧
    removeHabit (setHabits initialState [habitA]) 2
      = setHabits initialState [habitA] :=
  unmatched_id_noop (setHabits initialState [habitA]) 2 renameUpdate
    (by intro h hh; simp [setHabits] at hh; subst hh; decide)

/-- C6: when position `i` holds the unique habit whose id matches,
`updateHabit(id, u)` replaces that habit by the spread merge
`applyUpdate` and leaves the habit at every other position untouched. -/
theorem updateHabit_spec (s : HabitState) (id : Int) (u : HabitUpdate)
    (i : ℕ) (h0 : Habit) (hi : s.habits[i]? = some h0) (hid : h0.id = id)
    (huniq : ∀ (j : ℕ) (h1 : Habit), j ≠ i → s.habits[j]? = some h1 → h1.id ≠ id) :
    (updateHabit s id u).habits[i]? = some (applyUpdate h0 u) ∧
    ∀ (j : ℕ) (h1 : Habit), j ≠ i → s.habits[j]? = some h1 →
      (updateHabit s id u).habits[j]? = some h1 := by
  constructor
  · simp [updateHabit, List.getElem?_map, hi, hid]
  · intro j h1 hj hjget
    simp [updateHabit, List.getElem?_map, hjget, huniq j h1 hj hjget]

/-- Witness for C6: renaming habit 1 in a two-habit store merges the
update into position 0 and leaves position 1 untouched. -/
theorem updateHabit_spec_witness :
    (updateHabit (setHabits initialState [habitA, habitB]) 1 renameUpdate).habits[0]? =
      some (applyUpdate habitA renameUpdate) ∧
    (updateHabit (setHabits initialState [habitA, habitB]) 1 renameUpdate).habits[1]? =
      some habitB := by
  have huniq : ∀ (j : ℕ) (h1 : Habit), j ≠ 0 →
      (setHabits initialState [habitA, habitB]).habits[j]? = some h1 → h1.id ≠ 1 := by
    intro j h1 hj hg
    match j with
    | 0 => exact absurd rfl hj
    | 1 =>
      have hb : h1 = habitB := by
        have hg2 : some habitB = some h1 := hg
        exact (Option.some.injEq _ _ ▸ hg2).symm
      subst hb; decide
    | (n + 2) => exact Option.noConfusion hg
  have h := updateHabit_spec (setHabits initialState [habitA, habitB]) 1 renameUpdate
    0 habitA rfl rfl huniq
  exact ⟨h.1, h.2 1 habitB (by decide) rfl⟩

/-- C7: when the collection splits as `l1 ++ [h0] ++ l2` with `h0` the
only habit whose id matches, `removeHabit(id)` removes exactly that one
element and keeps the relative order of the rest; and `addHabit(habit)`
appends any habit (no duplicate check) at the end of the collection. -/
theorem removeHabit_addHabit_spec (s : HabitState) (id : Int)
    (l1 l2 : List Habit) (h0 hNew : Habit)
    (hsplit : s.habits = l1 ++ h0 :: l2) (hid : h0.id = id)
    (hl1 : ∀ h ∈ l1, h.id ≠ id) (hl2 : ∀ h ∈ l2, h.id ≠ id) :
    (removeHabit s id).habits = l1 ++ l2 ∧
    (addHabit s hNew).habits = s.habits ++ [hNew] := by
  refine ⟨?_, rfl⟩
  show s.habits.filter (fun h => h.id != id) = l1 ++ l2
  have f1 : l1.filter (fun h => h.id != id) = l1 :=
    List.filter_eq_self.mpr (fun a ha => by simp [hl1 a ha])
  have f2 : l2.filter (fun h => h.id != id) = l2 :=
    List.filter_eq_self.mpr (fun a ha => by simp [hl2 a ha])
  rw [hsplit, List.filter_append, f1, List.filter_cons]
  simp [hid, f2]

/-- Witness for C7: removing id 2 from `[habitA, habitB]` yields
`[habitA]`, and adding a duplicate of habitA appends it at the end. -/
theorem removeHabit_addHabit_spec_witness :
    (removeHabit (setHabits initialState [habitA, habitB]) 2).habits
      = [habitA] ++ [] ∧
    (addHabit (setHabits initialState [habitA, habitB]) habitA).habits
      = (setHabits initialState [habitA, habitB]).habits ++ [habitA] :=
  removeHabit_addHabit_spec (setHabits initialState [habitA, habitB]) 2
    [habitA] [] habitB habitA rfl rfl
    (by intro h hh; simp at hh; subst hh; decide)
    (by intro h hh; simp at hh)

/-- C9: `completeHabit` leaves every habit's `best_streak` — and every
field other than `is_completed_today`, `total_completions` and
`current_streak` — unchanged, at every position of the collection; and
there is a store on which, after `completeHabit`, a habit's
`current_streak` exceeds its `best_streak`, so `best_streak` is not
maintained as the running maximum of `current_streak`. -/
theorem completeHabit_frame (s : HabitState) (id : Int) :
    (∀ (i : ℕ) (h0 : Habit), s.habits[i]? = some h0 →
      ∃ h1 : Habit, (completeHabit s id).habits[i]? = some h1 ∧
        h1.best_streak = h0.best_streak ∧
        h1.id = h0.id ∧ h1.name = h0.name ∧
        h1.description = h0.description ∧ h1.emoji = h0.emoji ∧
        h1.reminder_time = h0.reminder_time ∧ h1.frequency = h0.frequency ∧
        h1.target_days = h0.target_days ∧ h1.is_active = h0.is_active ∧
        h1.progress_percentage = h0.progress_percentage ∧
        h1.created_at = h0.created_at) ∧
    (∃ (s1 : HabitState) (id1 : Int) (i : ℕ) (h1 : Habit),
      (completeHabit s1 id1).habits[i]? = some h1 ∧
      h1.best_streak < h1.current_streak) := by
  constructor
  · intro i h0 hi
    by_cases hid : h0.id = id
    · refine ⟨{ h0 with
          is_completed_today := true
          total_completions := h0.total_completions + 1
          current_streak := h0.current_streak + 1 },
        ?_, rfl, rfl, rfl, rfl, rfl, rfl, rfl, rfl, rfl, rfl, rfl⟩
      simp [completeHabit, List.getElem?_map, hi, hid]
    · refine ⟨h0, ?_, rfl, rfl, rfl, rfl, rfl, rfl, rfl, rfl, rfl, rfl, rfl⟩
      simp [completeHabit, List.getElem?_map, hi, hid]
  · refine ⟨setHabits initialState [habitA], 1, 0,
      { habitA with
        is_completed_today := true
        total_completions := habitA.total_completions + 1
        current_streak := habitA.current_streak + 1 }, ?_, ?_⟩
    · decide
    · decide

/-- Witness for C9: at a concrete one-habit store, the habit after
`completeHabit` keeps its `best_streak` and all display fields. -/
theorem completeHabit_frame_witness :
    ∃ h1 : Habit, (completeHabit (setHabits initialState [habitA]) 1).habits[0]? = some h1 ∧
      h1.best_streak = habitA.best_streak ∧
      h1.id = habitA.id ∧ h1.name = habitA.name ∧
      h1.description = habitA.description ∧ h1.emoji = habitA.emoji ∧
      h1.reminder_time = habitA.reminder_time ∧ h1.frequency = habitA.frequency ∧
      h1.target_days = habitA.target_days ∧ h1.is_active = habitA.is_active ∧
      h1.progress_percentage = habitA.progress_percentage ∧
      h1.created_at = habitA.created_at :=
  (completeHabit_frame (setHabits initialState [habitA]) 1).1 0 habitA rfl

/-- C10: `updateHabit` with an update not containing the `id` field, and
`completeHabit`, preserve both the length of the habit collection and the
id of the habit at every position, so the sequence of habit ids is
invariant under both operations. -/
theorem habit_ids_invariant (s : HabitState) (id : Int) (u : HabitUpdate)
    (hu : u.id = none) :
    (updateHabit s id u).habits.length = s.habits.length ∧
    (∀ i : ℕ, ((updateHabit s id u).habits[i]?).map Habit.id
      = (s.habits[i]?).map Habit.id) ∧
    (completeHabit s id).habits.length = s.habits.length ∧
    (∀ i : ℕ, ((completeHabit s id).habits[i]?).map Habit.id
      = (s.habits[i]?).map Habit.id) := by
  refine ⟨?_, ?_, ?_, ?_⟩
  · simp [updateHabit]
  · intro i
    cases hg : s.habits[i]? with
    | none => simp [updateHabit, List.getElem?_map, hg]
    | some a =>
      by_cases h : a.id = id <;>
        simp [updateHabit, List.getElem?_map, hg, h, applyUpdate, hu]
  · simp [completeHabit]
  · intro i
    cases hg : s.habits[i]? with
    | none => simp [completeHabit, List.getElem?_map, hg]
    | some a =>
      by_cases h : a.id = id <;>
        simp [completeHabit, List.getElem?_map, hg, h]

/-- Witness for C10 at a two-habit store with the empty update. -/
theorem habit_ids_invariant_witness :
    (updateHabit (setHabits initialState [habitA, habitB]) 1 emptyUpdate).habits.length
      = (setHabits initialState [habitA, habitB]).habits.length ∧
    ((updateHabit (setHabits initialState [habitA, habitB]) 1 emptyUpdate).habits[0]?).map Habit.id
      = ((setHabits initialState [habitA, habitB]).habits[0]?).map Habit.id ∧
    (completeHabit (setHabits initialState [habitA, habitB]) 1).habits.length
      = (setHabits initialState [habitA, habitB]).habits.length := by
  have h := habit_ids_invariant (setHabits initialState [habitA, habitB]) 1 emptyUpdate rfl
  exact ⟨h.1, h.2.1 0, h.2.2.1⟩
